import Mathlib

/-!
Verification development for the pcap-rewrite orchestration utility
(`pcap_rewrite.py`).  The script shells out to external tools (tcpprep,
tshark, tcprewrite); here those invocations are embedded as an explicit
event trace, while the script's own logic — input validation, the
address allocator, discovery-line parsing, the pair registry, and the
chained four-pass rewrite loop — is translated definition by definition.

Modelling conventions:
* IPv4 addresses are natural numbers (the integer value of the address);
  `addrStr` renders them dotted-quad exactly as Python's `str(IPv4Address)`.
* The external IP-syntax validator (`ipaddress.ip_address`) is a parameter
  `valid : String → Bool` of the discovery model, since it is Python
  standard-library code, external to this repository.
* Outcomes of external subprocesses (tcpprep success, tshark output,
  pickle write success) are fields of the `Config` record, since the
  script only branches on them.
-/

namespace PcapRewrite

/-! ### Python string helpers -/

/-- Python `str.isspace` characters relevant to `str.split()` / `str.strip()`. -/
def isPySpace (c : Char) : Bool :=
  c = ' ' || c = '\t' || c = '\n' || c = '\r' || c = '\x0b' || c = '\x0c'

/-- Accumulator-based worker for `pyWords`. -/
def pyWordsAux : List Char → List Char → List String
  | [], acc => if acc.isEmpty then [] else [String.mk acc.reverse]
  | c :: cs, acc =>
    if isPySpace c then
      if acc.isEmpty then pyWordsAux cs []
      else String.mk acc.reverse :: pyWordsAux cs []
    else pyWordsAux cs (c :: acc)

/-- Python `line.split()` (no argument): split on runs of whitespace,
discarding leading/trailing whitespace. -/
def pyWords (s : String) : List String := pyWordsAux s.data []

/-- Python `not line.strip()`: the line consists only of whitespace. -/
def isBlankLine (s : String) : Bool := s.data.all isPySpace

/-- Lexicographic code-point comparison of character lists: Python's `<`
on strings. -/
def listLt : List Char → List Char → Bool
  | [], [] => false
  | [], _ :: _ => true
  | _ :: _, [] => false
  | x :: xs, y :: ys => if x < y then true else if y < x then false else listLt xs ys

/-- Python `s < t` on strings. -/
def strLt (s t : String) : Bool := listLt s.data t.data

/-- `pair_key = tuple(sorted((src_ip, dst_ip)))`: Python's two-element sort
swaps exactly when the second element is less than the first. -/
def canonKey (src dst : String) : String × String :=
  if strLt dst src then (dst, src) else (src, dst)

/-! ### The MAC-address regular expression

`re.match(r"^([0-9A-Fa-f]{2}[:-]){5}([0-9A-Fa-f]{2})$", mac)`.
`re.match` anchors at the start; the final `$` matches at the end of the
string or just before a single trailing newline. -/

/-- `[0-9A-Fa-f]`. -/
def isHexDig (c : Char) : Bool :=
  ('0' ≤ c && c ≤ '9') || ('A' ≤ c && c ≤ 'F') || ('a' ≤ c && c ≤ 'f')

/-- `[:-]`. -/
def isMacSep (c : Char) : Bool := c = ':' || c = '-'

/-- Consume `n` copies of the group `[0-9A-Fa-f]{2}[:-]`. -/
def macGroups : Nat → List Char → Option (List Char)
  | 0, l => some l
  | n + 1, a :: b :: s :: rest =>
    if isHexDig a && isHexDig b && isMacSep s then macGroups n rest else none
  | _ + 1, _ => none

/-- Whether `re.match` of the MAC pattern against `s` succeeds. -/
def reMatchMac (s : String) : Bool :=
  match macGroups 5 s.data with
  | some (a :: b :: rest) => isHexDig a && isHexDig b && (rest = [] || rest = ['\n'])
  | _ => false

/-! ### Addresses, subnets and the allocator -/

/-- `str(IPv4Address(n))`: dotted-quad rendering of an address value. -/
def addrStr (n : Nat) : String :=
  Nat.repr (n / 16777216 % 256) ++ "." ++ Nat.repr (n / 65536 % 256) ++ "." ++
    Nat.repr (n / 256 % 256) ++ "." ++ Nat.repr (n % 256)

/-- An IP network: first address value and number of addresses
(`2 ^ (32 - prefixlen)` for a real IPv4 network). -/
structure Subnet where
  network : Nat
  size : Nat
deriving DecidableEq, Repr

/-- `subnet.broadcast_address` as an address value. -/
def Subnet.broadcast (s : Subnet) : Nat := s.network + s.size - 1

/-- Python `addr in subnet` (for an aligned network this is exactly the
interval test). -/
def Subnet.mem (s : Subnet) (a : Nat) : Bool :=
  s.network ≤ a && a ≤ s.broadcast

/-- One allocation: hand out the current cursor, then advance it by one,
resetting to `network + 11` if the advanced cursor left the subnet
(`next_ip += 1; if next_ip not in subnet: next_ip = network + 11`).
First component: the assigned address; second: the new cursor. -/
def allocStep (sn : Subnet) (cursor : Nat) : Nat × Nat :=
  let next := cursor + 1
  (cursor, if sn.mem next then next else sn.network + 11)

/-- The cursor before the `k`-th allocation of a run; the initial cursor is
`network_address + 11`. -/
def cursorAfter (sn : Subnet) : Nat → Nat
  | 0 => sn.network + 11
  | k + 1 => (allocStep sn (cursorAfter sn k)).2

/-- The address assigned to the `k`-th newly discovered pair (0-based):
the value of the cursor at that moment. -/
def assignedAddr (sn : Subnet) (k : Nat) : Nat := cursorAfter sn k

/-! ### Pair discovery (the tshark output loop) -/

/-- The value stored in `server_client_pairs` for one pair:
`{'server': str(next_server_ip), 'client': str(next_client_ip), 'processed': False}`
(addresses kept as values; `addrStr` renders them where the script uses
the stored strings). -/
structure Assignment where
  server : Nat
  client : Nat
  processed : Bool
deriving DecidableEq, Repr

/-- Discovery state: the registry (`server_client_pairs`, an
insertion-ordered map modelled as an association list) and the two
allocation cursors (`next_server_ip`, `next_client_ip`). -/
structure DiscState where
  reg : List ((String × String) × Assignment)
  sCur : Nat
  cCur : Nat
deriving DecidableEq, Repr

/-- The body of the per-line discovery loop.  Returns the new state and
whether a `WARNING` line was printed for this line.  Branches, in source
order: blank line (`continue`, silent); not exactly two tokens (warning);
a token rejected by the external address parser `valid` (warning);
already-known canonical key (silent); fresh key (insert and advance both
cursors). -/
def stepLine (valid : String → Bool) (ssn csn : Subnet) (st : DiscState)
    (line : String) : DiscState × Bool :=
  if isBlankLine line then (st, false)
  else
    match pyWords line with
    | [srcIp, dstIp] =>
      if valid srcIp && valid dstIp then
        let key := canonKey srcIp dstIp
        if (st.reg.find? (fun e => e.1 = key)).isSome then (st, false)
        else
          ({ reg := st.reg ++ [(key, ⟨st.sCur, st.cCur, false⟩)],
             sCur := (allocStep ssn st.sCur).2,
             cCur := (allocStep csn st.cCur).2 }, false)
      else (st, true)
    | _ => (st, true)

/-- The whole discovery loop over the tshark output lines, starting from an
empty registry and cursors at `network_address + 11`. -/
def discover (valid : String → Bool) (ssn csn : Subnet)
    (lines : List String) : DiscState :=
  lines.foldl (fun st line => (stepLine valid ssn csn st line).1)
    ⟨[], ssn.network + 11, csn.network + 11⟩

/-- A discovery line the script skips: wrong token count, or exactly two
tokens of which at least one fails the external address parser. -/
def badLine (valid : String → Bool) (line : String) : Prop :=
  match pyWords line with
  | [a, b] => valid a = false ∨ valid b = false
  | _ => True

instance (valid : String → Bool) (line : String) : Decidable (badLine valid line) := by
  unfold badLine
  exact match pyWords line with
  | [_, _] => inferInstanceAs (Decidable (_ ∨ _))
  | [] => inferInstanceAs (Decidable True)
  | [_] => inferInstanceAs (Decidable True)
  | _ :: _ :: _ :: _ => inferInstanceAs (Decidable True)

/-! ### The iterative tcprewrite loop -/

/-- `f"{base_filename}_temp_{processed_count}_{rewrite_step}.pcap"`. -/
def tempName (base : String) (pc rs : Nat) : String :=
  base ++ "_temp_" ++ Nat.repr pc ++ "_" ++ Nat.repr rs ++ ".pcap"

/-- `f"--srcipmap={orig}:{new}"`. -/
def srcFlag (orig new : String) : String := "--srcipmap=" ++ orig ++ ":" ++ new

/-- `f"--dstipmap={orig}:{new}"`. -/
def dstFlag (orig new : String) : String := "--dstipmap=" ++ orig ++ ":" ++ new

/-- One tcprewrite invocation, by its varying arguments. -/
structure RWCall where
  infile : String
  outfile : String
  flag : String
  cache : String
deriving DecidableEq, Repr

/-- The exact argument vector of a tcprewrite invocation as the script
builds it. -/
def argvOf (c : RWCall) (clientMacArg serverMacArg : String) : List String :=
  ["tcprewrite", "--infile", c.infile, "--outfile", c.outfile,
   "--enet-dmac=" ++ clientMacArg ++ "," ++ serverMacArg,
   "--skipbroadcast", "--fixcsum", c.flag, "--cachefile", c.cache]

/-- Externally visible effects of a run: subprocess invocations and
filesystem operations, in program order. -/
inductive Ev where
  | runTcpprep (infile outfile : String)
  | runTshark (infile : String)
  | run (c : RWCall)
  | remove (f : String)
  | renameTo (src dst : String)
  | persist (f : String) (ok : Bool)
deriving DecidableEq, Repr

/-- Pipeline loop state: `current_input_file`, `processed_count`,
`rewrite_step`. -/
structure LoopState where
  cur : String
  pc : Nat
  rs : Nat
deriving DecidableEq, Repr

/-- One of the four per-pair rewrite steps: build the temp name from the
current counters, run tcprewrite, then delete the file that served as
input — unconditionally, except that the first step of each pair keeps
`pcap_file` itself (`if current_input_file != pcap_file: os.remove(...)`;
`guarded := true` selects that form). -/
def rwStep (pcap base cache : String) (guarded : Bool) (flag : String)
    (st : LoopState) : List Ev × LoopState :=
  let t := tempName base st.pc st.rs
  let removes :=
    if guarded then (if st.cur = pcap then [] else [Ev.remove st.cur])
    else [Ev.remove st.cur]
  (Ev.run ⟨st.cur, t, flag, cache⟩ :: removes,
   { cur := t, pc := st.pc, rs := st.rs + 1 })

/-- The four rewrite passes for one registry entry, in source order:
server-as-source, client-as-destination, client-as-source,
server-as-destination; then `processed_count` is incremented.  The pair's
roles are re-derived by the conditional swap
(`if original_server_ip > original_client_ip: swap`). -/
def pairTrace (pcap base cache : String) (st : LoopState)
    (e : (String × String) × Assignment) : List Ev × LoopState :=
  let origServer := if strLt e.1.2 e.1.1 then e.1.2 else e.1.1
  let origClient := if strLt e.1.2 e.1.1 then e.1.1 else e.1.2
  let newServer := addrStr e.2.server
  let newClient := addrStr e.2.client
  let r1 := rwStep pcap base cache true (srcFlag origServer newServer) st
  let r2 := rwStep pcap base cache false (dstFlag origClient newClient) r1.2
  let r3 := rwStep pcap base cache false (srcFlag origClient newClient) r2.2
  let r4 := rwStep pcap base cache false (dstFlag origServer newServer) r3.2
  (r1.1 ++ r2.1 ++ r3.1 ++ r4.1, { r4.2 with pc := r4.2.pc + 1 })

/-- The iterative tcprewrite loop over the registry entries, skipping
entries already marked processed. -/
def loopTrace (pcap base cache : String) (st : LoopState) :
    List ((String × String) × Assignment) → List Ev × LoopState
  | [] => ([], st)
  | e :: rest =>
    if e.2.processed then loopTrace pcap base cache st rest
    else
      let r := pairTrace pcap base cache st e
      let r' := loopTrace pcap base cache r.2 rest
      (r.1 ++ r'.1, r'.2)

/-! ### The driver (`rewrite_pcap`) -/

/-- The `tcpprep_auto_mode` argument: `"first"`, `"only"` or `"none"`. -/
inductive Mode where
  | first
  | only
  | noAuto
deriving DecidableEq, Repr

/-- Inputs of one `rewrite_pcap` run, including the outcomes of the
external subprocesses the script branches on. -/
structure Config where
  /-- `os.path.exists(pcap_file)`. -/
  fileExists : Bool
  /-- The `pcap_file` argument. -/
  pcap : String
  /-- `os.path.splitext(os.path.basename(pcap_file))[0]`. -/
  base : String
  /-- `ipaddress.ip_network(server_subnet_str, strict=False)`:
  `none` models the `ValueError` path. -/
  serverNet : Option Subnet
  /-- Likewise for the client subnet. -/
  clientNet : Option Subnet
  /-- The `server_mac` argument. -/
  smac : String
  /-- The `client_mac` argument. -/
  cmac : String
  mode : Mode
  /-- Whether the tcpprep subprocess exits successfully. -/
  prePassOk : Bool
  /-- `os.path.exists(rewritten_pcap_file)` at startup. -/
  staleExists : Bool
  /-- tshark's stdout split into lines, or `none` for a non-zero exit. -/
  tsharkResult : Option (List String)
  /-- Whether `pickle.dump` of the registry succeeds. -/
  persistOk : Bool
  /-- `ipaddress.ip_address` syntax acceptance, applied to discovery tokens. -/
  validIP : String → Bool

/-- The whole `rewrite_pcap` control flow on the path where every
tcprewrite invocation succeeds: validation, stale-output removal,
optional tcpprep pre-pass, mandatory tshark discovery, registry
persistence, the iterative rewrite loop, final rename.  Returns the
effect trace and the returned value (`none` models `return None`). -/
def driver (cfg : Config) : List Ev × Option String :=
  if !cfg.fileExists then ([], none)
  else
    match cfg.serverNet, cfg.clientNet with
    | some ssn, some csn =>
      if !(reMatchMac cfg.smac && reMatchMac cfg.cmac) then ([], none)
      else
        let cacheFile := cfg.base ++ ".cache"
        let rewritten := cfg.base ++ "_rewritten.pcap"
        let pairsFile := cfg.base ++ "_pairs.pkl"
        let ev0 := if cfg.staleExists then [Ev.remove rewritten] else []
        let ev1 := match cfg.mode with
          | Mode.first => [Ev.runTcpprep cfg.pcap cacheFile]
          | Mode.only => [Ev.runTcpprep cfg.pcap cacheFile]
          | Mode.noAuto => []
        if cfg.mode = Mode.only && !cfg.prePassOk then (ev0 ++ ev1, none)
        else
          match cfg.tsharkResult with
          | none => (ev0 ++ ev1 ++ [Ev.runTshark cfg.pcap], none)
          | some lines =>
            let st := discover cfg.validIP ssn csn lines
            let r := loopTrace cfg.pcap cfg.base cacheFile ⟨cfg.pcap, 0, 0⟩ st.reg
            (ev0 ++ ev1 ++ [Ev.runTshark cfg.pcap, Ev.persist pairsFile cfg.persistOk]
               ++ r.1 ++ [Ev.renameTo r.2.cur rewritten],
             some rewritten)
    | _, _ => ([], none)

/-! ### Allocator lemmas -/

/-- Every reachable cursor lies between `network + 11` and the broadcast
address, provided the subnet has at least 12 addresses. -/
theorem cursorAfter_bounds (sn : Subnet) (h : 12 ≤ sn.size) (k : Nat) :
    sn.network + 11 ≤ cursorAfter sn k ∧ cursorAfter sn k ≤ sn.broadcast := by
  induction k with
  | zero =>
    unfold cursorAfter Subnet.broadcast
    omega
  | succ k ih =>
    show sn.network + 11 ≤ (allocStep sn (cursorAfter sn k)).2 ∧
      (allocStep sn (cursorAfter sn k)).2 ≤ sn.broadcast
    unfold allocStep
    by_cases hm : sn.mem (cursorAfter sn k + 1) = true
    · simp only [hm, if_pos]
      unfold Subnet.mem at hm
      simp only [Bool.and_eq_true, decide_eq_true_eq] at hm
      exact ⟨by omega, hm.2⟩
    · simp only [Bool.not_eq_true] at hm
      simp only [hm, Bool.false_eq_true, if_false]
      refine ⟨Nat.le_refl _, ?_⟩
      unfold Subnet.broadcast
      omega

/-- Before the wrap, the `k`-th cursor is exactly `network + 11 + k`. -/
theorem cursorAfter_linear (sn : Subnet) (h : 12 ≤ sn.size) (k : Nat)
    (hk : k ≤ sn.size - 12) : cursorAfter sn k = sn.network + 11 + k := by
  induction k with
  | zero => simp [cursorAfter]
  | succ k ih =>
    have hk' : k ≤ sn.size - 12 := by omega
    have hmem : sn.mem (sn.network + 11 + k + 1) = true := by
      unfold Subnet.mem Subnet.broadcast
      simp only [Bool.and_eq_true, decide_eq_true_eq]
      omega
    show (allocStep sn (cursorAfter sn k)).2 = _
    rw [ih hk']
    unfold allocStep
    simp only [hmem, if_pos]
    omega

/-! ### Discovery invariant -/

/-- Invariant of the discovery loop: the cursors track the number of
registry entries through `cursorAfter`, and the `i`-th entry holds the
`i`-th allocation of each subnet. -/
def RegInv (ssn csn : Subnet) (st : DiscState) : Prop :=
  st.sCur = cursorAfter ssn st.reg.length ∧
  st.cCur = cursorAfter csn st.reg.length ∧
  ∀ i (hi : i < st.reg.length),
    (st.reg.get ⟨i, hi⟩).2.server = assignedAddr ssn i ∧
    (st.reg.get ⟨i, hi⟩).2.client = assignedAddr csn i

theorem stepLine_inv (valid : String → Bool) (ssn csn : Subnet) (st : DiscState)
    (line : String) (h : RegInv ssn csn st) :
    RegInv ssn csn (stepLine valid ssn csn st line).1 := by
  obtain ⟨h1, h2, h3⟩ := h
  unfold stepLine
  split
  · exact ⟨h1, h2, h3⟩
  · split
    · split
      · dsimp only
        split
        · exact ⟨h1, h2, h3⟩
        · refine ⟨?_, ?_, ?_⟩
          · show (allocStep ssn st.sCur).2 = _
            simp only [List.length_append, List.length_cons, List.length_nil]
            rw [h1]
            rfl
          · show (allocStep csn st.cCur).2 = _
            simp only [List.length_append, List.length_cons, List.length_nil]
            rw [h2]
            rfl
          · intro i hi
            simp only [List.length_append, List.length_cons, List.length_nil] at hi
            by_cases hlt : i < st.reg.length
            · have := h3 i hlt
              rw [List.get_append i hlt]
              exact this
            · have hieq : i = st.reg.length := by omega
              subst hieq
              rw [List.get_of_append rfl rfl]
              exact ⟨h1, h2⟩
      · exact ⟨h1, h2, h3⟩
    · exact ⟨h1, h2, h3⟩

theorem discover_foldl_inv (valid : String → Bool) (ssn csn : Subnet) :
    ∀ (lines : List String) (st : DiscState), RegInv ssn csn st →
      RegInv ssn csn
        (lines.foldl (fun st line => (stepLine valid ssn csn st line).1) st) := by
  intro lines
  induction lines with
  | nil => intro st h; exact h
  | cons line rest ih =>
    intro st h
    exact ih _ (stepLine_inv valid ssn csn st line h)

theorem discover_inv (valid : String → Bool) (ssn csn : Subnet)
    (lines : List String) : RegInv ssn csn (discover valid ssn csn lines) :=
  discover_foldl_inv valid ssn csn lines _
    ⟨rfl, rfl, fun i hi => absurd hi (by simp)⟩

/-! ### Claim theorems -/

theorem listLt_asymm : ∀ a b : List Char, listLt a b = true → listLt b a = false := by
  intro a
  induction a with
  | nil =>
    intro b h
    cases b with
    | nil => simp [listLt] at h
    | cons y ys => simp [listLt]
  | cons x xs ih =>
    intro b h
    cases b with
    | nil => simp [listLt] at h
    | cons y ys =>
      unfold listLt at h ⊢
      by_cases hxy : x < y
      · simp [hxy, lt_asymm hxy]
      · by_cases hyx : y < x
        · simp [hxy, hyx] at h
        · simp [hxy, hyx] at h ⊢
          exact ih ys h

theorem listLt_both_false_eq : ∀ a b : List Char,
    listLt a b = false → listLt b a = false → a = b := by
  intro a
  induction a with
  | nil =>
    intro b h1 h2
    cases b with
    | nil => rfl
    | cons y ys => simp [listLt] at h1
  | cons x xs ih =>
    intro b h1 h2
    cases b with
    | nil => simp [listLt] at h2
    | cons y ys =>
      unfold listLt at h1 h2
      by_cases hxy : x < y
      · simp [hxy] at h1
      · by_cases hyx : y < x
        · simp [hxy, hyx] at h2
        · simp [hxy, hyx] at h1 h2
          have hx : x = y := le_antisymm (le_of_not_lt hyx) (le_of_not_lt hxy)
          rw [hx, ih ys h1 h2]

theorem strLt_asymm (a b : String) (h : strLt a b = true) : strLt b a = false :=
  listLt_asymm a.data b.data h

theorem strLt_both_false_eq (a b : String) (h1 : strLt a b = false)
    (h2 : strLt b a = false) : a = b := by
  cases a with
  | mk la =>
    cases b with
    | mk lb =>
      have : la = lb := listLt_both_false_eq la lb h1 h2
      rw [this]

/-- C5: the canonical pair key is symmetric (`canonKey a b = canonKey b a`)
and idempotent (re-canonicalizing a canonical pair leaves it unchanged),
so forward and reverse flows map to the same registry entry. -/
theorem canonKey_symm_idem (a b : String) :
    canonKey a b = canonKey b a ∧
      canonKey (canonKey a b).1 (canonKey a b).2 = canonKey a b := by
  constructor
  · unfold canonKey
    by_cases h : strLt b a = true
    · rw [if_pos h, if_neg (by simp [strLt_asymm b a h])]
    · have h' : strLt b a = false := by simpa using h
      by_cases h2 : strLt a b = true
      · rw [if_neg (by simp [h']), if_pos h2]
      · have h2' : strLt a b = false := by simpa using h2
        rw [strLt_both_false_eq a b h2' h']
  · unfold canonKey
    by_cases h : strLt b a = true
    · simp only [h, if_true]
      rw [if_neg (by simp [strLt_asymm b a h])]
    · have h' : strLt b a = false := by simpa using h
      simp only [h', Bool.false_eq_true, if_false]

/-- C10: the MAC pattern checks each of the five separators independently
against `[:-]`, so any mixture of colons and hyphens is accepted. -/
theorem reMatchMac_mixed_seps (s1 s2 s3 s4 s5 : Char)
    (h : (s1 = ':' ∨ s1 = '-') ∧ (s2 = ':' ∨ s2 = '-') ∧ (s3 = ':' ∨ s3 = '-') ∧
         (s4 = ':' ∨ s4 = '-') ∧ (s5 = ':' ∨ s5 = '-')) :
    reMatchMac (String.mk ['0', '0', s1, '1', '1', s2, '2', '2', s3, '3', '3', s4,
      '4', '4', s5, '5', '5']) = true := by
  obtain ⟨h1 | h1, h2 | h2, h3 | h3, h4 | h4, h5 | h5⟩ := h <;> subst_vars <;> decide

/-- Witness for C10 at the mixed-delimiter string from the claim. -/
theorem reMatchMac_mixed_seps_witness : reMatchMac "00:11-22:33-44:55" = true :=
  reMatchMac_mixed_seps ':' '-' ':' '-' ':'
    ⟨Or.inl rfl, Or.inr rfl, Or.inl rfl, Or.inr rfl, Or.inl rfl⟩

/-- C2 counterexample: in the subnet with network address 0 and 256
addresses (a /24), the 245th allocation (index 244) hands out address 255,
which is the subnet's broadcast address; moreover the 246th allocation
(index 245) repeats the very first address although only 245 < 256
addresses have been consumed, so repetition occurs before the subnet's
capacity is exhausted. -/
theorem assignedAddr_hits_broadcast :
    assignedAddr ⟨0, 256⟩ 244 = Subnet.broadcast ⟨0, 256⟩ ∧
      assignedAddr ⟨0, 256⟩ 245 = assignedAddr ⟨0, 256⟩ 0 ∧ 245 < 256 := by
  have h244 : cursorAfter ⟨0, 256⟩ 244 = 255 :=
    cursorAfter_linear ⟨0, 256⟩ (by decide) 244 (by decide)
  refine ⟨h244, ?_, by decide⟩
  show (allocStep ⟨0, 256⟩ (cursorAfter ⟨0, 256⟩ 244)).2 = _
  rw [h244]
  decide

/-- C2 (amended): for every subnet with at least 12 addresses, every
address the allocator assigns lies within the subnet and is never the
network address (it may equal the broadcast address), and no address is
assigned twice among the first `size - 11` allocations (i.e. before the
wrap back to `network + 11`). -/
theorem assignedAddr_inSubnet_nodup (sn : Subnet) (h : 12 ≤ sn.size) :
    (∀ k, sn.mem (assignedAddr sn k) = true ∧ assignedAddr sn k ≠ sn.network) ∧
      (∀ i j, i < j → j ≤ sn.size - 12 → assignedAddr sn i ≠ assignedAddr sn j) := by
  constructor
  · intro k
    have hb := cursorAfter_bounds sn h k
    unfold assignedAddr
    constructor
    · unfold Subnet.mem
      simp only [Bool.and_eq_true, decide_eq_true_eq]
      exact ⟨by omega, hb.2⟩
    · omega
  · intro i j hij hj
    unfold assignedAddr
    rw [cursorAfter_linear sn h i (by omega), cursorAfter_linear sn h j hj]
    omega

/-- C4: when each subnet has at least `N + 11` addresses for `N` the number
of discovered pairs, the N pair assignments have pairwise distinct server
addresses and pairwise distinct client addresses. -/
theorem discover_assignments_distinct (valid : String → Bool) (ssn csn : Subnet)
    (lines : List String)
    (h1 : (discover valid ssn csn lines).reg.length + 11 ≤ ssn.size)
    (h2 : (discover valid ssn csn lines).reg.length + 11 ≤ csn.size) :
    ∀ i j (hi : i < (discover valid ssn csn lines).reg.length)
      (hj : j < (discover valid ssn csn lines).reg.length), i ≠ j →
      ((discover valid ssn csn lines).reg.get ⟨i, hi⟩).2.server ≠
        ((discover valid ssn csn lines).reg.get ⟨j, hj⟩).2.server ∧
      ((discover valid ssn csn lines).reg.get ⟨i, hi⟩).2.client ≠
        ((discover valid ssn csn lines).reg.get ⟨j, hj⟩).2.client := by
  intro i j hi hj hne
  obtain ⟨-, -, h3⟩ := discover_inv valid ssn csn lines
  obtain ⟨hsi, hci⟩ := h3 i hi
  obtain ⟨hsj, hcj⟩ := h3 j hj
  rw [hsi, hsj, hci, hcj]
  have h12s : 12 ≤ ssn.size := by omega
  have h12c : 12 ≤ csn.size := by omega
  unfold assignedAddr
  rw [cursorAfter_linear ssn h12s i (by omega), cursorAfter_linear ssn h12s j (by omega),
    cursorAfter_linear csn h12c i (by omega), cursorAfter_linear csn h12c j (by omega)]
  omega

/-- A concrete two-pair discovery input. -/
def twoPairLines : List String := ["1.1.1.1 2.2.2.2", "3.3.3.3 4.4.4.4"]

/-- Witness for C4: a run discovering two pairs in two /24 subnets gets
distinct server and client addresses. -/
theorem discover_assignments_distinct_witness :
    ((discover (fun _ => true) ⟨0, 256⟩ ⟨512, 256⟩ twoPairLines).reg.get
        ⟨0, by decide⟩).2.server ≠
      ((discover (fun _ => true) ⟨0, 256⟩ ⟨512, 256⟩ twoPairLines).reg.get
        ⟨1, by decide⟩).2.server ∧
    ((discover (fun _ => true) ⟨0, 256⟩ ⟨512, 256⟩ twoPairLines).reg.get
        ⟨0, by decide⟩).2.client ≠
      ((discover (fun _ => true) ⟨0, 256⟩ ⟨512, 256⟩ twoPairLines).reg.get
        ⟨1, by decide⟩).2.client :=
  discover_assignments_distinct (fun _ => true) ⟨0, 256⟩ ⟨512, 256⟩ twoPairLines
    (by decide) (by decide) 0 1 (by decide) (by decide) (by decide)

/-- The address-remapping flag of a rewrite invocation event. -/
def runFlag : Ev → Option String
  | Ev.run c => some c.flag
  | _ => none

/-- The four remap flags the loop actually issues for one registry entry,
in source order. -/
def pairFlags (e : (String × String) × Assignment) : List String :=
  let origServer := if strLt e.1.2 e.1.1 then e.1.2 else e.1.1
  let origClient := if strLt e.1.2 e.1.1 then e.1.1 else e.1.2
  [srcFlag origServer (addrStr e.2.server),
   dstFlag origClient (addrStr e.2.client),
   srcFlag origClient (addrStr e.2.client),
   dstFlag origServer (addrStr e.2.server)]

/-- The four remap flags in the order the specification claims
(server-as-source, server-as-destination, client-as-source,
client-as-destination), written from the spec's words for comparison. -/
def specOrderFlags (e : (String × String) × Assignment) : List String :=
  let origServer := if strLt e.1.2 e.1.1 then e.1.2 else e.1.1
  let origClient := if strLt e.1.2 e.1.1 then e.1.1 else e.1.2
  [srcFlag origServer (addrStr e.2.server),
   dstFlag origServer (addrStr e.2.server),
   srcFlag origClient (addrStr e.2.client),
   dstFlag origClient (addrStr e.2.client)]

/-- A concrete registry entry for counterexamples and witnesses. -/
def sampleEntry : (String × String) × Assignment :=
  (("10.0.0.5", "10.0.0.9"), ⟨11, 523, false⟩)

/-- C1 counterexample: for a concrete registry with one entry, the sequence
of remap flags the pipeline issues is not the order the claim states —
the second invocation remaps the original client address as destination,
not the original server address. -/
theorem loopTrace_flags_ne_spec_order :
    (loopTrace "cap.pcap" "cap" "cap.cache" ⟨"cap.pcap", 0, 0⟩
        [sampleEntry]).1.filterMap runFlag ≠ specOrderFlags sampleEntry := by
  decide

/-- C1 (amended): for every registry entry processed by the rewrite
pipeline, exactly four rewrite invocations are issued, strictly in this
order: (1) original server address as source to the new server address,
(2) original client address as destination to the new client address,
(3) original client address as source to the new client address,
(4) original server address as destination to the new server address. -/
theorem loopTrace_flags (pcap base cache : String) (st : LoopState)
    (entries : List ((String × String) × Assignment)) :
    (loopTrace pcap base cache st entries).1.filterMap runFlag =
      (entries.filter (fun e => !e.2.processed)).flatMap pairFlags := by
  induction entries generalizing st with
  | nil => rfl
  | cons e rest ih =>
    show (loopTrace pcap base cache st (e :: rest)).1.filterMap runFlag = _
    unfold loopTrace
    by_cases hp : e.2.processed
    · simp only [hp, if_true, List.filter_cons, Bool.not_true, Bool.false_eq_true]
      rw [if_neg (by simp)]
      exact ih st
    · simp only [hp, Bool.false_eq_true, if_false, List.filter_cons, Bool.not_false]
      rw [if_pos trivial]
      show ((pairTrace pcap base cache st e).1 ++ _).filterMap runFlag = _
      rw [List.filterMap_append]
      show _ = pairFlags e ++ _
      congr 1
      · unfold pairTrace rwStep
        by_cases hc : st.cur = pcap
        · simp [hc, runFlag, pairFlags]
        · simp [hc, runFlag, pairFlags]
      · exact ih _

/-- Witness-style instantiation of the amended C1 on the sample entry. -/
theorem loopTrace_flags_witness :
    (loopTrace "cap.pcap" "cap" "cap.cache" ⟨"cap.pcap", 0, 0⟩
        [sampleEntry]).1.filterMap runFlag =
      ([sampleEntry].filter (fun e => !e.2.processed)).flatMap pairFlags :=
  loopTrace_flags "cap.pcap" "cap" "cap.cache" ⟨"cap.pcap", 0, 0⟩ [sampleEntry]

/-- Witness for the amended C2 on the /24 at network address 0. -/
theorem assignedAddr_inSubnet_nodup_witness :
    Subnet.mem ⟨0, 256⟩ (assignedAddr ⟨0, 256⟩ 3) = true ∧
      assignedAddr ⟨0, 256⟩ 3 ≠ (⟨0, 256⟩ : Subnet).network ∧
      assignedAddr ⟨0, 256⟩ 0 ≠ assignedAddr ⟨0, 256⟩ 1 :=
  ⟨((assignedAddr_inSubnet_nodup ⟨0, 256⟩ (by decide)).1 3).1,
   ((assignedAddr_inSubnet_nodup ⟨0, 256⟩ (by decide)).1 3).2,
   (assignedAddr_inSubnet_nodup ⟨0, 256⟩ (by decide)).2 0 1 (by decide) (by decide)⟩

/-- C6 counterexample: a blank line does not split into two tokens, yet it
is skipped silently (`continue` before the token-count check), not "with a
warning" as the claim states. -/
theorem blank_line_skipped_silently :
    (pyWords "").length ≠ 2 ∧
      stepLine (fun _ => true) ⟨0, 256⟩ ⟨512, 256⟩ ⟨[], 11, 523⟩ "" =
        (⟨[], 11, 523⟩, false) := by
  decide

/-- C6 (amended): every discovery line that fails to split into exactly two
tokens or contains a token the address parser rejects is skipped and
contributes no entry to the registry, the discovery state being entirely
unchanged, and processing continues with the remaining lines; a warning is
printed exactly when the line is not blank (blank lines are skipped
silently). -/
theorem badLine_skipped (valid : String → Bool) (ssn csn : Subnet)
    (line : String) (h : badLine valid line) :
    (∀ st, stepLine valid ssn csn st line = (st, !isBlankLine line)) ∧
    ∀ (pre post : List String),
      discover valid ssn csn (pre ++ line :: post) =
        discover valid ssn csn (pre ++ post) := by
  have hstep : ∀ st, stepLine valid ssn csn st line = (st, !isBlankLine line) := by
    intro st
    by_cases hb : isBlankLine line = true
    · simp [stepLine, hb]
    · have hb' : isBlankLine line = false := by simpa using hb
      unfold stepLine
      unfold badLine at h
      simp only [hb', Bool.false_eq_true, if_false, Bool.not_false]
      cases hpw : pyWords line with
      | nil => rfl
      | cons a t =>
        cases t with
        | nil => rfl
        | cons b t2 =>
          cases t2 with
          | nil =>
            rw [hpw] at h
            have hv : (valid a && valid b) = false := by
              rcases h with h | h <;> simp [h]
            simp [hv]
          | cons c t3 => rfl
  refine ⟨hstep, fun pre post => ?_⟩
  unfold discover
  rw [List.foldl_append, List.foldl_append]
  show List.foldl _ ((stepLine valid ssn csn _ line).1) post = _
  rw [hstep]

/-- Witness for the amended C6: a two-token line whose addresses the parser
rejects leaves the state unchanged and warns. -/
theorem badLine_skipped_witness :
    stepLine (fun _ => false) ⟨0, 256⟩ ⟨512, 256⟩ ⟨[], 11, 523⟩ "xx yy" =
      (⟨[], 11, 523⟩, !isBlankLine "xx yy") :=
  (badLine_skipped (fun _ => false) ⟨0, 256⟩ ⟨512, 256⟩ "xx yy" (by decide)).1
    ⟨[], 11, 523⟩

/-- A generated temporary filename never equals `<base>.pcap` — its text
after `base` starts with an underscore, not a dot. -/
theorem tempName_ne_dotpcap (base : String) (i j : Nat) :
    tempName base i j ≠ base ++ ".pcap" := by
  intro h
  unfold tempName at h
  have hd := congrArg String.data h
  simp only [String.data_append, List.append_assoc] at hd
  have hc := List.append_cancel_left hd
  simp only [List.cons_append, List.cons.injEq] at hc
  exact absurd hc.1 (by decide)

/-- The files removed while processing one pair: either the pair's input
file (only when it differs from the original capture) or one of the three
temporaries generated within the pair. -/
theorem pairTrace_removes (pcap base cache : String) (st : LoopState)
    (e : (String × String) × Assignment) :
    ∀ f, Ev.remove f ∈ (pairTrace pcap base cache st e).1 →
      (st.cur ≠ pcap ∧ f = st.cur) ∨ ∃ i j, f = tempName base i j := by
  intro f hf
  by_cases hc : st.cur = pcap
  · simp [pairTrace, rwStep, hc] at hf
    rcases hf with rfl | rfl | rfl
    · exact Or.inr ⟨st.pc, st.rs, rfl⟩
    · exact Or.inr ⟨st.pc, st.rs + 1, rfl⟩
    · exact Or.inr ⟨st.pc, st.rs + 2, rfl⟩
  · simp [pairTrace, rwStep, hc] at hf
    rcases hf with rfl | rfl | rfl | rfl
    · exact Or.inl ⟨hc, rfl⟩
    · exact Or.inr ⟨st.pc, st.rs, rfl⟩
    · exact Or.inr ⟨st.pc, st.rs + 1, rfl⟩
    · exact Or.inr ⟨st.pc, st.rs + 2, rfl⟩

/-- Every file the rewrite loop removes is distinct from the original
capture and is one of the generated temporary files, provided (as the
generated names guarantee) no temporary name equals the original path. -/
theorem loopTrace_removes (pcap base cache : String)
    (entries : List ((String × String) × Assignment)) (st : LoopState)
    (hcur : st.cur = pcap ∨ ∃ i j, st.cur = tempName base i j)
    (hpc : ∀ i j, tempName base i j ≠ pcap) :
    ∀ f, Ev.remove f ∈ (loopTrace pcap base cache st entries).1 →
      f ≠ pcap ∧ ∃ i j, f = tempName base i j := by
  induction entries generalizing st with
  | nil =>
    intro f hf
    simp [loopTrace] at hf
  | cons e rest ih =>
    intro f hf
    unfold loopTrace at hf
    by_cases hp : e.2.processed
    · rw [if_pos hp] at hf
      exact ih st hcur f hf
    · rw [if_neg hp] at hf
      rw [List.mem_append] at hf
      rcases hf with hf | hf
      · rcases pairTrace_removes pcap base cache st e f hf with ⟨hne, rfl⟩ | htemp
        · rcases hcur with hcur | hcur
          · exact absurd hcur hne
          · exact ⟨hne, hcur⟩
        · obtain ⟨i, j, rfl⟩ := htemp
          exact ⟨hpc i j, i, j, rfl⟩
      · exact ih _ (Or.inr ⟨st.pc, st.rs + 3, rfl⟩) f hf

/-- C7: the rewrite loop never deletes the original capture file — the
first step's guard skips it and every later deletion targets the
temporary file that served as that step's input; the hypothesis records
that no generated temporary name collides with the original path, which
`tempName_ne_dotpcap` establishes for the actual naming scheme. -/
theorem original_never_deleted (pcap base cache : String)
    (entries : List ((String × String) × Assignment))
    (hpc : ∀ i j, tempName base i j ≠ pcap) :
    Ev.remove pcap ∉ (loopTrace pcap base cache ⟨pcap, 0, 0⟩ entries).1 ∧
    ∀ f, Ev.remove f ∈ (loopTrace pcap base cache ⟨pcap, 0, 0⟩ entries).1 →
      ∃ i j, f = tempName base i j := by
  have h := loopTrace_removes pcap base cache entries ⟨pcap, 0, 0⟩ (Or.inl rfl) hpc
  exact ⟨fun hmem => (h pcap hmem).1 rfl, fun f hmem => (h f hmem).2⟩

/-- Witness for C7 on a concrete one-pair run with the scheme's actual
file names. -/
theorem original_never_deleted_witness :
    Ev.remove "cap.pcap" ∉
      (loopTrace "cap.pcap" "cap" "cap.cache" ⟨"cap.pcap", 0, 0⟩ [sampleEntry]).1 :=
  (original_never_deleted "cap.pcap" "cap" "cap.cache" [sampleEntry]
    (fun i j => by simpa using tempName_ne_dotpcap "cap" i j)).1

/-- C8: whenever a supplied MAC address fails the validation pattern, the
run returns no result and its effect trace is empty — no subprocess is
invoked and no file is created, removed or renamed. -/
theorem invalid_mac_no_effects (cfg : Config)
    (h : reMatchMac cfg.smac = false ∨ reMatchMac cfg.cmac = false) :
    driver cfg = ([], none) := by
  unfold driver
  by_cases hf : cfg.fileExists = true
  · simp only [hf, Bool.not_true, Bool.false_eq_true, if_false]
    cases hsn : cfg.serverNet with
    | none => rfl
    | some ssn =>
      cases hcn : cfg.clientNet with
      | none => rfl
      | some csn =>
        have hm : (reMatchMac cfg.smac && reMatchMac cfg.cmac) = false := by
          rcases h with h | h <;> simp [h]
        simp [hm]
  · have : cfg.fileExists = false := by simpa using hf
    simp [this]

/-- A concrete configuration with an invalid server MAC. -/
def badMacCfg : Config :=
  { fileExists := true, pcap := "cap.pcap", base := "cap",
    serverNet := some ⟨0, 256⟩, clientNet := some ⟨512, 256⟩,
    smac := "00:11:22", cmac := "AA:BB:CC:DD:EE:FF",
    mode := Mode.first, prePassOk := true, staleExists := true,
    tsharkResult := some ["1.1.1.1 2.2.2.2"], persistOk := true,
    validIP := fun _ => true }

/-- Witness for C8 at the claim's example MAC `"00:11:22"`. -/
theorem invalid_mac_no_effects_witness : driver badMacCfg = ([], none) :=
  invalid_mac_no_effects badMacCfg (Or.inl (by decide))

/-- Every rewrite invocation issued by the loop carries the same cache-file
argument the loop was given. -/
theorem loopTrace_run_cache (pcap base cache : String) (st : LoopState)
    (entries : List ((String × String) × Assignment)) (c : RWCall)
    (h : Ev.run c ∈ (loopTrace pcap base cache st entries).1) : c.cache = cache := by
  induction entries generalizing st with
  | nil => simp [loopTrace] at h
  | cons e rest ih =>
    unfold loopTrace at h
    by_cases hp : e.2.processed
    · rw [if_pos hp] at h
      exact ih st h
    · rw [if_neg hp] at h
      rw [List.mem_append] at h
      rcases h with h | h
      · by_cases hc : st.cur = pcap <;>
          simp [pairTrace, rwStep, hc] at h <;>
          rcases h with rfl | rfl | rfl | rfl <;> rfl
      · exact ih _ h

/-- A valid configuration that skips the pre-pass (`--auto none`). -/
def noAutoCfg : Config :=
  { fileExists := true, pcap := "cap.pcap", base := "cap",
    serverNet := some ⟨0, 256⟩, clientNet := some ⟨512, 256⟩,
    smac := "00:11:22:33:44:55", cmac := "AA:BB:CC:DD:EE:FF",
    mode := Mode.noAuto, prePassOk := true, staleExists := false,
    tsharkResult := some ["1.1.1.1 2.2.2.2"], persistOk := true,
    validIP := fun _ => true }

/-- C3 counterexample: with mode `"none"` no pre-pass runs (so no cache
file is produced), yet every rewrite invocation still passes
`--cachefile` with the cache filename — the invocation does reference a
cache file, contrary to the claim's "if and only if". -/
theorem cachefile_passed_without_prepass :
    ((driver noAutoCfg).1.any (fun e =>
        match e with
        | Ev.runTcpprep _ _ => true
        | _ => false)) = false ∧
    ((driver noAutoCfg).1.any (fun e =>
        match e with
        | Ev.run c => (argvOf c noAutoCfg.cmac noAutoCfg.smac).contains "--cachefile"
        | _ => false)) = true := by
  decide

/-- C3 (amended): every rewrite invocation unconditionally carries
`--cachefile <base>.cache`, regardless of the pre-pass mode and of whether
a pre-pass ran or succeeded. -/
theorem rewrite_always_uses_cachefile (cfg : Config) (c : RWCall)
    (h : Ev.run c ∈ (driver cfg).1) :
    c.cache = cfg.base ++ ".cache" ∧ "--cachefile" ∈ argvOf c cfg.cmac cfg.smac := by
  refine ⟨?_, by simp [argvOf]⟩
  unfold driver at h
  by_cases hf : cfg.fileExists = true
  case neg =>
    have hf' : cfg.fileExists = false := by simpa using hf
    simp [hf'] at h
  case pos =>
  simp only [hf, Bool.not_true, Bool.false_eq_true, if_false] at h
  cases hsn : cfg.serverNet with
  | none => rw [hsn] at h; simp at h
  | some ssn =>
  rw [hsn] at h
  cases hcn : cfg.clientNet with
  | none => rw [hcn] at h; simp at h
  | some csn =>
  rw [hcn] at h
  by_cases hm : (reMatchMac cfg.smac && reMatchMac cfg.cmac) = true
  case neg =>
    have hm' : (reMatchMac cfg.smac && reMatchMac cfg.cmac) = false := by simpa using hm
    simp [hm'] at h
  case pos =>
  simp only [hm, Bool.not_true, Bool.false_eq_true, if_false] at h
  cases hst : cfg.staleExists <;> cases hmode : cfg.mode <;>
    cases hppo : cfg.prePassOk <;> rw [hst, hmode, hppo] at h <;>
    cases htsr : cfg.tsharkResult <;> rw [htsr] at h <;>
    simp only [List.mem_append, List.mem_cons, List.mem_singleton,
      List.not_mem_nil, or_false, false_or, reduceCtorEq, if_true, if_false,
      Bool.not_true, Bool.not_false, Bool.and_true, Bool.and_false,
      decide_True, decide_False, List.nil_append, List.cons_append] at h <;>
    first
      | exact h.elim
      | exact loopTrace_run_cache _ _ _ _ _ c h

/-- Witness for the amended C3: the first rewrite invocation of the
concrete no-pre-pass run carries the cache filename. -/
theorem rewrite_always_uses_cachefile_witness :
    (⟨"cap.pcap", "cap_temp_0_0.pcap", "--srcipmap=1.1.1.1:0.0.0.11",
        "cap.cache"⟩ : RWCall).cache = noAutoCfg.base ++ ".cache" ∧
      "--cachefile" ∈ argvOf ⟨"cap.pcap", "cap_temp_0_0.pcap",
        "--srcipmap=1.1.1.1:0.0.0.11", "cap.cache"⟩ noAutoCfg.cmac noAutoCfg.smac :=
  rewrite_always_uses_cachefile noAutoCfg
    ⟨"cap.pcap", "cap_temp_0_0.pcap", "--srcipmap=1.1.1.1:0.0.0.11", "cap.cache"⟩
    (by decide)

/-- Events other than the registry-persistence attempt. -/
def nonPersistEv : Ev → Bool
  | Ev.persist _ _ => false
  | _ => true

/-- C9: whether the registry-dump write succeeds or fails changes nothing
downstream — the returned value and the whole effect trace apart from the
persistence attempt itself (in particular every rewrite invocation, which
uses the unchanged registry) are identical. -/
theorem persist_failure_harmless (cfg : Config) :
    (driver { cfg with persistOk := true }).2 =
      (driver { cfg with persistOk := false }).2 ∧
    (driver { cfg with persistOk := true }).1.filter nonPersistEv =
      (driver { cfg with persistOk := false }).1.filter nonPersistEv := by
  obtain ⟨fe, pcap, base, snet, cnet, smac, cmac, mode, ppo, stale, tsr, pok, vip⟩ := cfg
  unfold driver
  cases fe <;> rcases snet with _ | ssn <;> rcases cnet with _ | csn <;>
    cases mode <;> cases stale <;> cases ppo <;> rcases tsr with _ | lines <;>
    by_cases hm : (reMatchMac smac && reMatchMac cmac) = true <;>
    simp [hm, nonPersistEv, List.filter_append]

end PcapRewrite
